import Mathlib

/-!
Verification development for the carbon-graphs charting library.

The definitions below are a shallow embedding of the JavaScript sources:

* `src/main/js/helpers/region.js` (`validateRegion`, `createRegion`,
  `shouldHideAllRegions`, `hideAllRegions`, `toggleRegion`, `processRegions`)
* `src/main/js/controls/Graph/Graph.js` (`Graph.loadContent`,
  `Graph.unloadContent`, `Graph.resize`, `isRangeModified`)
* `src/main/js/controls/Line/Line.js` (`calculateValuesRange`, lifecycle
  `load`/`unload`/`resize`)
* the Bar chart `calculateValuesRange`
* the datetime-bucket helpers (`hasDatetimeBuckets`, `prepareHAxis`,
  `constructDatetimeBucketValues`)
* the Gantt helpers (`updateTrackList`, `prepareLoadAtIndex`, the Gantt
  `scaleGraph`, `getYAxisDomain`, `getYAxisRange`)

JavaScript numbers are modelled as rationals (`ℚ`); `NaN` arising from
`Number(undefined)` is modelled explicitly.  Helper predicates from the
repository's `utils` module (`isEmpty`, `notEmpty`, `isNumber`, truthiness)
are reproduced with standard JavaScript semantics.
-/

namespace Carbon

/-! ## JavaScript value model -/

/-- A JavaScript value as it can appear in a region's `start`/`end` field:
`undefined`, `null`, a number, or a string. -/
inductive JsVal where
  | undef : JsVal
  | null : JsVal
  | num (x : ℚ) : JsVal
  | str (s : String) : JsVal
  deriving DecidableEq, Repr

/-- `utils.isEmpty` on a scalar value: `undefined` and `null` are empty,
a string is empty iff it has length 0, a number is never empty. -/
def isEmptyVal : JsVal → Bool
  | .undef => true
  | .null => true
  | .num _ => false
  | .str s => s.length == 0

/-- `utils.notEmpty` — negation of `utils.isEmpty`. -/
def notEmptyVal (v : JsVal) : Bool := !isEmptyVal v

/-- `utils.isNumber` — true exactly for values of JavaScript number type. -/
def isNumberVal : JsVal → Bool
  | .num _ => true
  | _ => false

/-- JavaScript truthiness: `undefined`, `null`, `0` and `""` are falsy. -/
def truthyVal : JsVal → Bool
  | .undef => false
  | .null => false
  | .num x => decide (x ≠ 0)
  | .str s => s.length != 0

/-- Result of JavaScript `Number(v)`: either `NaN` or a rational value. -/
inductive JsNum where
  | nan : JsNum
  | val (x : ℚ) : JsNum
  deriving DecidableEq, Repr

/-- JavaScript `Number(v)` coercion.  `Number(undefined)` is `NaN`,
`Number(null)` and `Number("")` are `0`.  Parsing of non-empty numeric
string literals is not modelled (no claim feeds a non-empty string to the
numeric comparison: such a value is rejected earlier by the
`isNumber` type check, which only passes JavaScript numbers). -/
def toJsNumber : JsVal → JsNum
  | .undef => .nan
  | .null => .val 0
  | .num x => .val x
  | .str s => if s.length == 0 then .val 0 else .nan

/-- JavaScript `>` comparison after `Number` coercion: any comparison with
`NaN` is false. -/
def jsNumGT : JsNum → JsNum → Bool
  | .val a, .val b => decide (a > b)
  | _, _ => false

/-! ## Region model (`helpers/region.js`) -/

/-- Axis name constants (`constants.Y_AXIS` / `constants.Y2_AXIS`). -/
def Y_AXIS : String := "y"

/-- `constants.Y2_AXIS`. -/
def Y2_AXIS : String := "y2"

/-- A region input object `{axis?, start?, end?, color?}`.  The `axis`
field is a string or absent (`undefined`); the bounds are arbitrary
JavaScript values.  Field `end` is named `end_` (`end` is reserved). -/
structure Region where
  axis : Option String
  start : JsVal
  end_ : JsVal
  deriving DecidableEq, Repr

/-- `utils.isEmpty` on the optional `axis` string field. -/
def isEmptyAxis : Option String → Bool
  | none => true
  | some s => s.length == 0

/-- The error identifiers thrown by `validateRegion`
(`helpers/errors.js` message-kind constants). -/
inductive RegionError where
  | REGION_EMPTY : RegionError
  | REGION_START_END_MISSING : RegionError
  | REGION_INVALID_AXIS_PROVIDED : RegionError
  | REGION_INVALID_VALUE_TYPE_PROVIDED : RegionError
  | REGION_START_MORE_END : RegionError
  deriving DecidableEq, Repr

/-- `validateRegion(region, targetAxis)` from `helpers/region.js`.
Returns `some e` when the source throws error `e`, `none` when the region
passes validation.  The checks are performed in source order:
empty object, both bounds missing, invalid axis (present case), invalid
axis (absent case), non-numeric bound type, start greater than end. -/
def validateRegion (region : Option Region) (targetAxis : String) :
    Option RegionError :=
  match region with
  | none => some .REGION_EMPTY
  | some r =>
    if isEmptyVal r.start && isEmptyVal r.end_ then
      some .REGION_START_END_MISSING
    else if !isEmptyAxis r.axis &&
        ((decide (r.axis ≠ some Y_AXIS) && decide (r.axis ≠ some Y2_AXIS)) ||
          decide (r.axis ≠ some targetAxis)) then
      some .REGION_INVALID_AXIS_PROVIDED
    else if isEmptyAxis r.axis && decide (Y_AXIS ≠ targetAxis) then
      some .REGION_INVALID_AXIS_PROVIDED
    else if (truthyVal r.start && !isNumberVal r.start) ||
        (truthyVal r.end_ && !isNumberVal r.end_) then
      some .REGION_INVALID_VALUE_TYPE_PROVIDED
    else if jsNumGT (toJsNumber r.start) (toJsNumber r.end_) then
      some .REGION_START_MORE_END
    else
      none

/-- A rendered `rect` element inside the region group container:
`bare` directly after the d3 `enter().append("rect")` step (no attributes
applied yet), or fully attributed with its `aria-describedby` key and its
`aria-hidden` state. -/
inductive RegionRect where
  | bare : RegionRect
  | attributed (describedBy : String) (ariaHidden : Bool) : RegionRect
  deriving DecidableEq, Repr

/-- The first validation error over a region list, in list order —
d3's `.each((d) => validateRegion(d, targetAxis))` throws at the first
invalid datum. -/
def firstRegionError (regionList : List (Option Region)) (targetAxis : String) :
    Option RegionError :=
  regionList.findSome? (fun r => validateRegion r targetAxis)

/-- `createRegion(scale, config, regionGroupSVG, regionList, uniqueKey,
targetAxis)` from `helpers/region.js`, restricted to its DOM effect on the
region group.  The d3 chain is
`enter().append("rect").each(validate).classed(...).attr(...)`:
the append step inserts one `rect` per datum into the DOM *first*; only then
does `.each` run `validateRegion` on each datum in order, and a thrown
validation error aborts the chain before any class or attribute is applied.
Returns the region group's rect list after the call together with the raised
error, if any. -/
def createRegion (dom : List RegionRect) (regionList : List (Option Region))
    (uniqueKey : String) (targetAxis : String) :
    List RegionRect × Option RegionError :=
  let appended := dom ++ regionList.map (fun _ => RegionRect.bare)
  match firstRegionError regionList targetAxis with
  | some e => (appended, some e)
  | none =>
    (dom ++ regionList.map (fun _ => RegionRect.attributed uniqueKey false), none)

/-! ## Line value ranges (`controls/Line/Line.js`) -/

/-- A Line data point; `y = none` models a JavaScript `null` y value
(a gap in a non-contiguous series). -/
structure DataPoint where
  x : ℚ
  y : Option ℚ
  deriving DecidableEq, Repr

/-- `Math.min(...list)`: `none` models the empty-spread case
(JavaScript `Infinity`). -/
def jsMinList : List ℚ → Option ℚ
  | [] => none
  | x :: xs => some (xs.foldl min x)

/-- `Math.max(...list)`: `none` models the empty-spread case
(JavaScript `-Infinity`). -/
def jsMaxList : List ℚ → Option ℚ
  | [] => none
  | x :: xs => some (xs.foldl max x)

/-- The min/max value range of one data series for its y axis. -/
structure ValuesRange where
  min : Option ℚ
  max : Option ℚ
  deriving DecidableEq, Repr

/-- `calculateValuesRange(values, axis)` from `controls/Line/Line.js`:
`values.filter((i) => i.y !== null).map((i) => i.y)` followed by
`Math.min`/`Math.max`.  The filter-then-map composition is `filterMap`.
The `axis` argument only keys the returned record and is dropped here. -/
def calculateValuesRange (values : List DataPoint) : ValuesRange :=
  let yAxisValuesList := values.filterMap (fun i => i.y)
  { min := jsMinList yAxisValuesList, max := jsMaxList yAxisValuesList }

/-- Identifier of the two vertical axes a content can target. -/
inductive YAxisId where
  | y : YAxisId
  | y2 : YAxisId
  deriving DecidableEq, Repr

/-- One loaded Line series: its target y axis and its data point values. -/
structure LineSeries where
  yAxis : YAxisId
  values : List DataPoint
  deriving DecidableEq, Repr

/-- Minimum of two optional values (`none` is the identity — the neutral
`Infinity` of `Math.min`). -/
def optMin : Option ℚ → Option ℚ → Option ℚ
  | none, b => b
  | a, none => a
  | some a, some b => some (min a b)

/-- Maximum of two optional values (`none` is the identity). -/
def optMax : Option ℚ → Option ℚ → Option ℚ
  | none, b => b
  | a, none => a
  | some a, some b => some (max a b)

/-- Modelled from the spec: `computeDomain(contentList, axisId)` of the
Scale/Domain Engine (`helpers/axis.js` `getAxesDataRange` is not under
`src/`).  Per spec §4.1 it "merges the value ranges of every
currently-loaded Content on the given axis (`y` or `y2`), taking
elementwise min/max across all series"; each series' own range is the
source-embedded `calculateValuesRange`. -/
def computeDomain (contents : List LineSeries) (axis : YAxisId) :
    Option ℚ × Option ℚ :=
  let rs := (contents.filter (fun c => c.yAxis == axis)).map
    (fun c => calculateValuesRange c.values)
  (rs.foldl (fun acc r => optMin acc r.min) none,
    rs.foldl (fun acc r => optMax acc r.max) none)

/-! ## Bar value range (Bar `calculateValuesRange`) -/

/-- A Bar data point (its y value is always a number). -/
structure BarPoint where
  x : ℚ
  y : ℚ
  deriving DecidableEq, Repr

/-- Bar chart `calculateValuesRange(values, axis)`:
`min = Math.min(...values.map(i => i.y))`, `max = Math.max(...)`, then the
returned range is `{min: min < 0 ? min : 0, max: max > 0 ? max : 0}`.
On an empty list `Math.min` is `Infinity` (so `min < 0` is false) and
`Math.max` is `-Infinity` (so `max > 0` is false); both branches then
yield `0`. -/
def calculateValuesRangeBar (values : List BarPoint) : ℚ × ℚ :=
  let mn := jsMinList (values.map (fun i => i.y))
  let mx := jsMaxList (values.map (fun i => i.y))
  ((match mn with
    | some m => if m < 0 then m else 0
    | none => 0),
    (match mx with
    | some m => if m > 0 then m else 0
    | none => 0))

/-! ## Datetime tick buckets (`helpers/datetimeBuckets.js`) -/

/-- The `axis.x.ticks` configuration object.  Each field is `none` when the
property is absent (`undefined`); `some []` models a present but empty
array (which is truthy in JavaScript).  Tick values are modelled as
timestamps. -/
structure XTicks where
  values : Option (List Nat)
  lowerStepTickValues : Option (List Nat)
  midpointTickValues : Option (List Nat)
  upperStepTickValues : Option (List Nat)
  deriving DecidableEq, Repr

/-- `utils.notEmpty` on an optional array: false for an absent property and
for an empty array. -/
def notEmptyList : Option (List Nat) → Bool
  | some (_ :: _) => true
  | _ => false

/-- `hasDatetimeBuckets(ticks)`: false when `ticks` is absent, otherwise
true iff any of the three bucket tiers is a non-empty array. -/
def hasDatetimeBuckets : Option XTicks → Bool
  | none => false
  | some t =>
    notEmptyList t.midpointTickValues || notEmptyList t.upperStepTickValues ||
      notEmptyList t.lowerStepTickValues

/-- `constructDatetimeBucketValues(dateTimeBuckets)`: starts from `[]`,
concatenates `values` when non-empty, then `upperStepTickValues` when
non-empty.  The two fields of the `dateTimeBuckets` argument object are
passed separately. -/
def constructDatetimeBucketValues (values upper : Option (List Nat)) :
    List Nat :=
  (if notEmptyList values then values.getD [] else []) ++
    (if notEmptyList upper then upper.getD [] else [])

/-- `prepareHAxis(scale, axis, config, prepareXAxisHandler, orientation)`
restricted to the tick-value list the X axis is prepared with.  When the
config has datetime buckets, the handler rebuilds `axis.x` with
`constructDatetimeBucketValues` applied to
`{values: lowerStepTickValues ? lowerStepTickValues : values,
upperStepTickValues}` (JavaScript truthiness: a present array, even an
empty one, is truthy); otherwise `axis.x` is left as previously prepared
(`axisTicks`). -/
def prepareHAxisTicks (ticks : Option XTicks) (axisTicks : Option (List Nat)) :
    Option (List Nat) :=
  match ticks with
  | none => axisTicks
  | some t =>
    if hasDatetimeBuckets (some t) then
      let values := match t.lowerStepTickValues with
        | some l => some l
        | none => t.values
      some (constructDatetimeBucketValues values t.upperStepTickValues)
    else
      axisTicks

/-! ## Graph unloadContent (`controls/Graph/Graph.js`) -/

/-- The identity of a content object (JavaScript `indexOf` on the content
list compares object references; distinct tokens model distinct objects). -/
abbrev ContentId := Nat

/-- The parts of a Graph instance `unloadContent` can touch: the content
list, the parallel `contentTargets` raw-config list, and the rendered DOM
(a list of content keys whose mark groups are in the canvas). -/
structure GraphState where
  content : List ContentId
  contentTargets : List ContentId
  dom : List ContentId
  deriving DecidableEq, Repr

/-- The error identifier thrown by `Graph.unloadContent`
(`errors.THROW_MSG_INVALID_OBJECT_PROVIDED`). -/
inductive GraphError where
  | INVALID_OBJECT_PROVIDED : GraphError
  deriving DecidableEq, Repr

/-- JavaScript `Array.prototype.indexOf`: index of the first occurrence,
or `-1` when absent. -/
def jsIndexOf (l : List ContentId) (x : ContentId) : Int :=
  match l.findIdx? (fun a => a == x) with
  | some i => (i : Int)
  | none => -1

/-- `content.unload(graph)`: removes exactly this content's DOM subtree,
matched by its unique key. -/
def contentUnload (g : GraphState) (c : ContentId) : GraphState :=
  { g with dom := g.dom.filter (fun k => k ≠ c) }

/-- `Graph.resize()` as seen by `unloadContent`: recomputes the canvas
width and the scale and retranslates existing elements — no structural
change to the content lists or the set of rendered groups. -/
def graphResize (g : GraphState) : GraphState := g

/-- `Graph.unloadContent(content)`: looks the content up by identity with
`indexOf`, throws `THROW_MSG_INVALID_OBJECT_PROVIDED` when the index is
negative (before any mutation), otherwise splices both parallel lists at
the index, calls `content.unload(this)` and then `resize()`.  The second
component is the raised error; on a throw the returned state is the input
state. -/
def unloadContent (g : GraphState) (c : ContentId) :
    GraphState × Option GraphError :=
  let index := jsIndexOf g.content c
  if index < 0 then
    (g, some .INVALID_OBJECT_PROVIDED)
  else
    let spliced := { g with
      content := g.content.eraseIdx index.toNat,
      contentTargets := g.contentTargets.eraseIdx index.toNat }
    (graphResize (contentUnload spliced c), none)

/-! ## Graph loadContent trace (`controls/Graph/Graph.js`) -/

/-- A content to be loaded into a Graph, with the value range it computed
at construction time (`none` when the series has no numeric values). -/
structure LoadContentInput where
  key : Nat
  yAxis : YAxisId
  range : Option (ℚ × ℚ)
  deriving DecidableEq, Repr

/-- The merged y-range over a content list for one axis —
Modelled from the spec: `getAxesDataRange` (`helpers/axis.js`) is not
under `src/`; per spec §4.1 the combined data range is the elementwise
min/max across all currently-loaded series of that axis. -/
def mergedRange (contents : List LoadContentInput) (axis : YAxisId) :
    Option (ℚ × ℚ) :=
  (contents.filter (fun c => c.yAxis == axis)).foldl
    (fun acc c =>
      match acc, c.range with
      | none, r => r
      | a, none => a
      | some (lo, hi), some (lo2, hi2) => some (min lo lo2, max hi hi2))
    none

/-- The stored per-axis data ranges of the Graph config. -/
structure AxisRanges where
  y : Option (ℚ × ℚ)
  y2 : Option (ℚ × ℚ)
  deriving DecidableEq, Repr

/-- Reads the stored range for one axis. -/
def AxisRanges.get (r : AxisRanges) : YAxisId → Option (ℚ × ℚ)
  | .y => r.y
  | .y2 => r.y2

/-- Writes the stored range for one axis. -/
def AxisRanges.set (r : AxisRanges) (axis : YAxisId) (v : Option (ℚ × ℚ)) :
    AxisRanges :=
  match axis with
  | .y => { r with y := v }
  | .y2 => { r with y2 := v }

/-- The X axis type (`AXIS_TYPE`). -/
inductive AxisType where
  | TIME_SERIES : AxisType
  | DEFAULT : AxisType
  deriving DecidableEq, Repr

/-- The parts of a Graph instance `loadContent` reads or mutates. -/
structure LoadGraphState where
  contents : List LoadContentInput
  ranges : AxisRanges
  dateline : List Nat
  xType : AxisType
  deriving DecidableEq, Repr

/-- The observable operations `Graph.loadContent` performs, in program
order. -/
inductive LoadEvent where
  | validateContent : LoadEvent
  | pushContent (key : Nat) : LoadEvent
  | setAxisPadding : LoadEvent
  | getAxesDataRange : LoadEvent
  | updateAxesDomain : LoadEvent
  | contentLoad (key : Nat) : LoadEvent
  | redrawDatelineContent : LoadEvent
  | setCanvasWidth : LoadEvent
  | scaleGraph : LoadEvent
  | translateGraph : LoadEvent
  | contentResize (key : Nat) : LoadEvent
  deriving DecidableEq, Repr

/-- The events of `Graph.resize()`: set canvas width, rebuild the scale,
retranslate the graph, then `content.forEach((control) =>
control.resize(this))` in list order. -/
def graphResizeEvents (contents : List LoadContentInput) : List LoadEvent :=
  [.setCanvasWidth, .scaleGraph, .translateGraph] ++
    contents.map (fun c => LoadEvent.contentResize c.key)

/-- `isRangeModified(config, yAxis)` reads
`config.axis[yAxis].dataRange.isRangeModified`, the flag set by
`getAxesDataRange`: whether registering the new content changed the
combined data range for that axis (Modelled from the spec:
`helpers/axis.js` is not under `src/`; spec §4.1 requires detecting
"when a newly-loaded Content changes the combined domain"). -/
def rangeModifiedFlag (g : LoadGraphState) (c : LoadContentInput) : Bool :=
  decide (mergedRange (g.contents ++ [c]) c.yAxis ≠ g.ranges.get c.yAxis)

/-- `Graph.loadContent(content)` as a trace of observable events plus the
resulting registered-content list.  Statement order follows the source:
`validateContent`; push onto `content` and `contentTargets`;
`setAxisPadding`; `getAxesDataRange`; `updateAxesDomain` only under
`isRangeModified`; `content.load(this)`; `redrawDatelineContent` only when
the dateline list is non-empty and the X axis is time-series; finally
`this.resize()`.  (`validateContent` is modelled from the spec —
`GraphConfig.js` is not under `src/` — as rejecting a duplicate content;
on a throw the trace stops at the validation step.) -/
def loadContentTrace (g : LoadGraphState) (c : LoadContentInput) :
    List LoadEvent × LoadGraphState :=
  if c.key ∈ g.contents.map (fun x => x.key) then
    ([.validateContent], g)
  else
    let contents := g.contents ++ [c]
    let newRange := mergedRange contents c.yAxis
    let modified := rangeModifiedFlag g c
    let g2 : LoadGraphState := { g with
      contents := contents,
      ranges := g.ranges.set c.yAxis newRange }
    ([.validateContent, .pushContent c.key, .setAxisPadding,
        .getAxesDataRange] ++
      (if modified then [.updateAxesDomain] else []) ++
      [.contentLoad c.key] ++
      (if g.dateline ≠ [] ∧ g.xType = .TIME_SERIES then
        [.redrawDatelineContent] else []) ++
      graphResizeEvents contents, g2)

/-! ## Gantt track loading (Gantt helpers) -/

/-- `DEFAULT_GANTT_TRACK_HEIGHT` (`helpers/constants.js`). -/
def DEFAULT_GANTT_TRACK_HEIGHT : ℚ := 41

/-- The per-track entry of `config.axis.y.trackList`. -/
structure TrackInfo where
  trackHeight : ℚ
  trackLabel : String
  deriving DecidableEq, Repr

/-- A gantt track content input: `key` and `trackLabel.display` are
required fields, `dimension.trackHeight` and `loadAtIndex` are optional. -/
structure TrackContent where
  key : Option String
  trackLabel : Option String
  dimension : Option ℚ
  loadAtIndex : Option Int
  deriving DecidableEq, Repr

/-- Errors of the gantt load path.  `INVALID_CONTENT` stands for the
required-field errors of Track's `validateContent`;
`INVALID_LOAD_CONTENT_AT_INDEX` is
`errors.THROW_MSG_INVALID_LOAD_CONTENT_AT_INDEX`. -/
inductive GanttError where
  | INVALID_CONTENT : GanttError
  | INVALID_LOAD_CONTENT_AT_INDEX : GanttError
  deriving DecidableEq, Repr

/-- Modelled from the spec: Track's `validateContent` (`controls/Gantt/
Track.js` is not under `src/`) — a content missing its required `key` or
`trackLabel.display` field is a configuration error raised during
validation (spec §7). -/
def validateTrackContent (c : TrackContent) : Option GanttError :=
  match c.key, c.trackLabel with
  | some k, some l => if k.length == 0 || l.length == 0 then
      some .INVALID_CONTENT else none
  | _, _ => some .INVALID_CONTENT

/-- `updateTrackList(content, trackIndex, trackListObject)`: converts the
track-list object to an ordered entry list, splices the new track in at
`trackIndex`, and converts back.  `Array.prototype.splice` clamps an
out-of-range insertion index to the list length, which `take`/`drop` do
as well.  (Re-using an already-present track key, which the object
round-trip would collapse, is not modelled.) -/
def updateTrackList (c : TrackContent) (trackIndex : Nat)
    (trackList : List (String × TrackInfo)) : List (String × TrackInfo) :=
  trackList.take trackIndex ++
    [(c.key.getD "",
      { trackHeight := c.dimension.getD DEFAULT_GANTT_TRACK_HEIGHT,
        trackLabel := c.trackLabel.getD "" })] ++
    trackList.drop trackIndex

/-- `getYAxisDomain(trackList)`: the ordered track labels (empty for an
empty track list). -/
def getYAxisDomain (trackList : List (String × TrackInfo)) : List String :=
  if trackList = [] then [] else trackList.map (fun t => t.2.trackLabel)

/-- `getYAxisRange(trackList)`: cumulative sums of the track heights —
entry `i` is `h_i` plus the sum of the heights before it. -/
def getYAxisRange (trackList : List (String × TrackInfo)) : List ℚ :=
  let hs := trackList.map (fun t => t.2.trackHeight)
  hs.mapIdx (fun i h =>
    if i > 0 then h + ((hs.take i).foldl (fun a b => a + b) 0) else h)

/-- The gantt d3 scale: ordinal Y with the track labels as domain and
`[0, ...cumulative heights]` as range (the X part is not needed here). -/
structure GanttScale where
  domain : List String
  range : List ℚ
  deriving DecidableEq, Repr

/-- The gantt `scaleGraph(scale, config)`, restricted to the Y scale it
rebuilds from the track list. -/
def scaleGraphGantt (trackList : List (String × TrackInfo)) : GanttScale :=
  { domain := getYAxisDomain trackList, range := 0 :: getYAxisRange trackList }

/-- The state `prepareLoadAtIndex` can mutate: the track list and the
scale. -/
structure GanttState where
  trackList : List (String × TrackInfo)
  scale : GanttScale
  deriving DecidableEq, Repr

/-- The result of `prepareLoadAtIndex`: the (possibly mutated) state, the
raised error if any, and the returned insertion index on success. -/
structure PrepareLoadResult where
  state : GanttState
  err : Option GanttError
  index : Option Nat
  deriving DecidableEq, Repr

/-- `prepareLoadAtIndex(scale, config, content, length)`: validates the
content, then — when a `loadAtIndex` property is present — throws
`THROW_MSG_INVALID_LOAD_CONTENT_AT_INDEX` for a negative index *before*
touching the track list or the scale; for a non-negative index it splices
the track in and rebuilds the scale; without `loadAtIndex` it appends at
`length` (no scale rebuild in that branch).  On a throw the returned
state is the input state. -/
def prepareLoadAtIndex (st : GanttState) (c : TrackContent) (length : Nat) :
    PrepareLoadResult :=
  match validateTrackContent c with
  | some e => ⟨st, some e, none⟩
  | none =>
    match c.loadAtIndex with
    | some i =>
      if i < 0 then
        ⟨st, some .INVALID_LOAD_CONTENT_AT_INDEX, none⟩
      else
        let tl := updateTrackList c i.toNat st.trackList
        ⟨{ trackList := tl, scale := scaleGraphGantt tl }, none, some i.toNat⟩
    | none =>
      let tl := updateTrackList c length st.trackList
      ⟨{ trackList := tl, scale := st.scale }, none, some length⟩

/-! ## Region visibility subsystem (`helpers/region.js`, `Line.js`)

A transition system for the region show/hide behaviour of a Graph holding
Line contents.  The state keeps, per loaded content, whether it declared
regions, plus `config.shownTargets` and the `aria-hidden` state of each
content's region rects.  All region rects of one content always move in
lockstep (they are created together with `aria-hidden=false`, and
`hideAllRegions`/`toggleRegion` address them globally resp. per content
key), so one boolean per content-with-regions is a faithful DOM model.

The pieces from `src/`: `shouldHideAllRegions`, `hideAllRegions`,
`toggleRegion`, `processRegions` (`helpers/region.js`); `Line.load`
creating this content's regions with `aria-hidden=false`, `Line.resize`
hiding all regions when `shouldHideAllRegions`, `Line.unload` removing
this content's regions (`Line.js`); `Graph.resize` calling `resize` on
every content, `Graph.loadContent`/`Graph.unloadContent` ending in
`resize()` (`Graph.js`).  Modelled from the spec (files not under
`src/`): the Line legend click handler mutates `shownTargets` and then
runs `processRegions` on the next animation frame (spec §5), and
`processDataPoints` registers the content's key in `shownTargets` on
load. -/

/-- A loaded Line content as the region subsystem sees it: its key and
whether its `dataTarget.regions` list is non-empty. -/
structure RContent where
  key : Nat
  hasRegions : Bool
  deriving DecidableEq, Repr

/-- The region subsystem state: loaded contents in order,
`config.shownTargets`, and one `(key, aria-hidden)` entry per loaded
content that declared regions. -/
structure RState where
  contents : List RContent
  shownTargets : List Nat
  regions : List (Nat × Bool)
  deriving DecidableEq, Repr

/-- `hideAllRegions(canvasSVG)`: sets `aria-hidden=true` on every region
rect in the canvas. -/
def hideAllRegionsS (s : RState) : RState :=
  { s with regions := s.regions.map (fun p => (p.1, true)) }

/-- `toggleRegion(canvasSVG, key)`: flips `aria-hidden` on the region
rects with `aria-describedby="region_<key>"`. -/
def toggleRegionS (s : RState) (key : Nat) : RState :=
  { s with regions :=
      s.regions.map (fun p => if p.1 = key then (p.1, !p.2) else p) }

/-- `isSingleTargetDisplayed(graphTargets)`: exactly one shown target. -/
def isSingleTargetDisplayedS (graphTargets : List Nat) : Bool :=
  graphTargets.length == 1

/-- `processRegions(shownTargets, canvasSVG)`: toggle the single shown
target's regions when exactly one target is displayed, otherwise hide all
regions. -/
def processRegionsS (s : RState) : RState :=
  if isSingleTargetDisplayedS s.shownTargets then
    toggleRegionS s (s.shownTargets.headD 0)
  else
    hideAllRegionsS s

/-- `shouldHideAllRegions(regionList, graphTargets)`: the content's region
list is non-empty and more than one target is displayed. -/
def shouldHideAllRegionsS (hasRegions : Bool) (graphTargets : List Nat) :
    Bool :=
  hasRegions && graphTargets.length > 1

/-- `Line.resize(graph)` restricted to its region effect: hide all
regions when `shouldHideAllRegions(this.dataTarget.regions,
graph.config.shownTargets)` (translation does not change `aria-hidden`). -/
def lineResizeS (c : RContent) (s : RState) : RState :=
  if shouldHideAllRegionsS c.hasRegions s.shownTargets then
    hideAllRegionsS s
  else
    s

/-- `Graph.resize()`: calls `resize` on every registered content in list
order. -/
def graphResizeS (s : RState) : RState :=
  s.contents.foldl (fun acc c => lineResizeS c acc) s

/-- `Graph.loadContent` restricted to the region subsystem: register the
content, add its key to `shownTargets` when absent (`processDataPoints`),
create its regions with `aria-hidden=false` (`Line.load` /
`createRegion`), then run a full `resize()`. -/
def loadContentS (s : RState) (c : RContent) : RState :=
  let shown := if c.key ∈ s.shownTargets then s.shownTargets
    else s.shownTargets ++ [c.key]
  graphResizeS
    { contents := s.contents ++ [c],
      shownTargets := shown,
      regions := s.regions ++
        (if c.hasRegions then [(c.key, false)] else []) }

/-- A legend click on a loaded content's legend item: toggles the key's
membership in `shownTargets` (splice when present, push otherwise), then
the scheduled animation-frame callback runs `processRegions`. -/
def clickLegendS (s : RState) (key : Nat) : RState :=
  let shown := if key ∈ s.shownTargets then s.shownTargets.erase key
    else s.shownTargets ++ [key]
  processRegionsS { s with shownTargets := shown }

/-- `Graph.unloadContent` restricted to the region subsystem: remove the
content and its region rects (`Line.unload` / `removeRegion`), leave
`shownTargets` as is, then run a full `resize()`. -/
def unloadContentS (s : RState) (key : Nat) : RState :=
  graphResizeS
    { contents := s.contents.filter (fun c => c.key ≠ key),
      shownTargets := s.shownTargets,
      regions := s.regions.filter (fun p => p.1 ≠ key) }

/-- The states of the region subsystem reachable from a freshly generated
Graph (no content, no shown targets, no region rects) by loading a
fresh-keyed content, clicking the legend item of a loaded content,
unloading, and window resizes. -/
inductive RReach : RState → Prop where
  | init : RReach ⟨[], [], []⟩
  | load (s : RState) (c : RContent) (hs : RReach s)
      (hfresh : c.key ∉ s.contents.map (fun x => x.key)) :
      RReach (loadContentS s c)
  | click (s : RState) (key : Nat) (hs : RReach s)
      (hloaded : key ∈ s.contents.map (fun x => x.key)) :
      RReach (clickLegendS s key)
  | unload (s : RState) (key : Nat) (hs : RReach s) :
      RReach (unloadContentS s key)
  | resize (s : RState) (hs : RReach s) : RReach (graphResizeS s)

/-- A region `axis` field that passes `validateRegion`'s two axis checks
for the given target axis: either the field is empty and the target is the
default `y` axis, or it names the target axis, which is `y` or `y2`. -/
def validAxisFor (a : Option String) (target : String) : Bool :=
  if isEmptyAxis a then target == Y_AXIS
  else a == some target && (target == Y_AXIS || target == Y2_AXIS)

/-- Every region of the canvas carries `aria-hidden=true`. -/
def allHidden (s : RState) : Prop :=
  ∀ p ∈ s.regions, p.2 = true

/-- The inductive invariant of the region subsystem:
(a) with two or more shown targets every region is hidden;
(b) with exactly one shown target, that target's regions are visible;
(c) with no shown target every region is hidden;
(d) every region entry belongs to a loaded content that declared
regions. -/
def RInv (s : RState) : Prop :=
  (2 ≤ s.shownTargets.length → allHidden s) ∧
    (∀ t, s.shownTargets = [t] → ∀ p ∈ s.regions, p.1 = t → p.2 = false) ∧
    (s.shownTargets = [] → allHidden s) ∧
    (∀ p ∈ s.regions, ∃ c, c ∈ s.contents ∧ c.key = p.1 ∧ c.hasRegions = true)

/-! ## Helper lemmas -/

theorem foldl_min_mem (z : ℚ) (zs : List ℚ) : zs.foldl min z ∈ z :: zs := by
  induction zs generalizing z with
  | nil => simp
  | cons w ws ih =>
    have h := ih (min z w)
    rcases List.mem_cons.mp h with h1 | h1
    · rcases min_choice z w with hc | hc <;> rw [List.foldl_cons, h1, hc] <;> simp
    · simp [List.foldl_cons, List.mem_cons.mpr (Or.inr (List.mem_cons.mpr (Or.inr h1)))]

theorem foldl_min_le (z : ℚ) (zs : List ℚ) : ∀ w ∈ z :: zs, zs.foldl min z ≤ w := by
  induction zs generalizing z with
  | nil => intro w hw; simp at hw; simp [hw]
  | cons v vs ih =>
    have hbase : vs.foldl min (min z v) ≤ min z v :=
      ih (min z v) (min z v) (List.mem_cons_self _ _)
    intro w hw
    rw [List.foldl_cons]
    rcases List.mem_cons.mp hw with h1 | h1
    · rw [h1]; exact le_trans hbase (min_le_left _ _)
    · rcases List.mem_cons.mp h1 with h2 | h2
      · rw [h2]; exact le_trans hbase (min_le_right _ _)
      · exact ih (min z v) w (List.mem_cons.mpr (Or.inr h2))

theorem foldl_max_mem (z : ℚ) (zs : List ℚ) : zs.foldl max z ∈ z :: zs := by
  induction zs generalizing z with
  | nil => simp
  | cons w ws ih =>
    have h := ih (max z w)
    rcases List.mem_cons.mp h with h1 | h1
    · rcases max_choice z w with hc | hc <;> rw [List.foldl_cons, h1, hc] <;> simp
    · simp [List.foldl_cons, List.mem_cons.mpr (Or.inr (List.mem_cons.mpr (Or.inr h1)))]

theorem le_foldl_max (z : ℚ) (zs : List ℚ) : ∀ w ∈ z :: zs, w ≤ zs.foldl max z := by
  induction zs generalizing z with
  | nil => intro w hw; simp at hw; simp [hw]
  | cons v vs ih =>
    have hbase : max z v ≤ vs.foldl max (max z v) :=
      ih (max z v) (max z v) (List.mem_cons_self _ _)
    intro w hw
    rw [List.foldl_cons]
    rcases List.mem_cons.mp hw with h1 | h1
    · rw [h1]; exact le_trans (le_max_left _ _) hbase
    · rcases List.mem_cons.mp h1 with h2 | h2
      · rw [h2]; exact le_trans (le_max_right _ _) hbase
      · exact ih (max z v) w (List.mem_cons.mpr (Or.inr h2))

theorem validateRegion_single_bound_start (a : Option String) (target : String)
    (x : ℚ) (h : validAxisFor a target = true) :
    validateRegion (some ⟨a, .num x, .undef⟩) target = none := by
  unfold validAxisFor at h
  unfold validateRegion
  by_cases he : isEmptyAxis a = true
  · rw [if_pos he] at h
    have ht : target = Y_AXIS := by simpa using h
    simp [isEmptyVal, he, ht, truthyVal, isNumberVal, toJsNumber, jsNumGT]
  · rw [if_neg he] at h
    have ha : a = some target := by
      have := (Bool.and_eq_true _ _).mp h
      simpa using this.1
    have ht : target = Y_AXIS ∨ target = Y2_AXIS := by
      have := (Bool.and_eq_true _ _).mp h
      rcases (Bool.or_eq_true _ _).mp this.2 with h1 | h1
      · exact Or.inl (by simpa using h1)
      · exact Or.inr (by simpa using h1)
    subst ha
    rcases ht with ht | ht <;>
      simp [isEmptyVal, isEmptyAxis, ht, Y_AXIS, Y2_AXIS, truthyVal,
        isNumberVal, toJsNumber, jsNumGT]
    decide

theorem validateRegion_single_bound_end (a : Option String) (target : String)
    (x : ℚ) (h : validAxisFor a target = true) :
    validateRegion (some ⟨a, .undef, .num x⟩) target = none := by
  unfold validAxisFor at h
  unfold validateRegion
  by_cases he : isEmptyAxis a = true
  · rw [if_pos he] at h
    have ht : target = Y_AXIS := by simpa using h
    simp [isEmptyVal, he, ht, truthyVal, isNumberVal, toJsNumber, jsNumGT]
  · rw [if_neg he] at h
    have ha : a = some target := by
      have := (Bool.and_eq_true _ _).mp h
      simpa using this.1
    have ht : target = Y_AXIS ∨ target = Y2_AXIS := by
      have := (Bool.and_eq_true _ _).mp h
      rcases (Bool.or_eq_true _ _).mp this.2 with h1 | h1
      · exact Or.inl (by simpa using h1)
      · exact Or.inr (by simpa using h1)
    subst ha
    rcases ht with ht | ht <;>
      simp [isEmptyVal, isEmptyAxis, ht, Y_AXIS, Y2_AXIS, truthyVal,
        isNumberVal, toJsNumber, jsNumGT]
    decide

/-- C9: a region whose `start` and `end` are both empty/undefined is
rejected by `validateRegion` with the region-start-end-missing error,
while a region providing exactly one of the two bounds — as a number,
with an axis field valid for the target axis — passes validation. -/
theorem validateRegion_missing_and_single_bound :
    (∀ (r : Region) (target : String), isEmptyVal r.start = true →
        isEmptyVal r.end_ = true →
        validateRegion (some r) target =
          some RegionError.REGION_START_END_MISSING) ∧
      (∀ (a : Option String) (target : String) (x : ℚ),
        validAxisFor a target = true →
        validateRegion (some ⟨a, .num x, .undef⟩) target = none) ∧
      (∀ (a : Option String) (target : String) (x : ℚ),
        validAxisFor a target = true →
        validateRegion (some ⟨a, .undef, .num x⟩) target = none) := by
  refine ⟨?_, ?_, ?_⟩
  · intro r target hs he
    simp [validateRegion, hs, he]
  · exact validateRegion_single_bound_start
  · exact validateRegion_single_bound_end

/-- Witness for C9: the concrete region with both bounds absent throws the
missing-bounds error; `{start: 5}` on the default `y` axis and
`{end: 3}` with explicit axis `y2` on the `y2` axis both pass. -/
theorem validateRegion_missing_and_single_bound_witness :
    validateRegion (some ⟨none, .undef, .undef⟩) Y_AXIS =
        some RegionError.REGION_START_END_MISSING ∧
      validateRegion (some ⟨none, .num 5, .undef⟩) Y_AXIS = none ∧
      validateRegion (some ⟨some "y2", .undef, .num 3⟩) Y2_AXIS = none :=
  ⟨validateRegion_missing_and_single_bound.1 ⟨none, .undef, .undef⟩ Y_AXIS
      (by decide) (by decide),
    validateRegion_missing_and_single_bound.2.1 none Y_AXIS 5 (by decide),
    validateRegion_missing_and_single_bound.2.2 (some "y2") Y2_AXIS 3
      (by decide)⟩

/-- C2 counterexample: at the concrete region `{start: 10, end: 5}` the
start-greater-than-end validation error is raised, but contrary to the
claim it is not raised before any region rect is appended to the DOM —
`createRegion` on an empty region group leaves the enter-appended bare
`rect` in the group when the error propagates. -/
theorem createRegion_start_more_end_counterexample :
    (createRegion [] [some ⟨none, .num 10, .num 5⟩] "region_uid_1" Y_AXIS).2 =
        some RegionError.REGION_START_MORE_END ∧
      (createRegion [] [some ⟨none, .num 10, .num 5⟩] "region_uid_1"
          Y_AXIS).1 ≠ [] := by
  constructor
  · rfl
  · decide

/-- C2 (amended): for every region with numeric bounds `start > end` (and
a default axis on a `y`-target content), `createRegion` raises the
start-greater-than-end validation error — but the error is raised by the
`.each` validation step, after the d3 enter-append has already inserted
the region's `rect` element into the DOM; the appended rect stays bare
(no class or attribute is applied). -/
theorem createRegion_start_more_end (dom : List RegionRect) (key : String)
    (a b : ℚ) (h : a > b) :
    createRegion dom [some ⟨none, .num a, .num b⟩] key Y_AXIS =
      (dom ++ [RegionRect.bare], some RegionError.REGION_START_MORE_END) := by
  unfold createRegion firstRegionError
  have hv : validateRegion (some ⟨none, .num a, .num b⟩) Y_AXIS =
      some RegionError.REGION_START_MORE_END := by
    unfold validateRegion
    simp [isEmptyVal, isEmptyAxis, truthyVal, isNumberVal, toJsNumber,
      jsNumGT, h]
  simp [hv]

/-- Witness for the amended C2: at `{start: 10, end: 5}` the error is
raised and the bare rect is in the region group. -/
theorem createRegion_start_more_end_witness :
    (10 : ℚ) > 5 ∧
      createRegion [] [some ⟨none, .num 10, .num 5⟩] "region_uid_1" Y_AXIS =
        ([RegionRect.bare], some RegionError.REGION_START_MORE_END) :=
  ⟨by norm_num,
    createRegion_start_more_end [] "region_uid_1" 10 5 (by norm_num)⟩

/-- C1: `Graph.unloadContent` called with a content object that is not an
element of the Graph's content list throws the invalid-object-provided
error, and the Graph state — the content list, the parallel
`contentTargets` list and the rendered DOM — is exactly as it was before
the call (the `indexOf` identity check precedes every mutation). -/
theorem unloadContent_absent_throws (g : GraphState) (c : ContentId)
    (h : c ∉ g.content) :
    unloadContent g c = (g, some GraphError.INVALID_OBJECT_PROVIDED) := by
  have hf : g.content.findIdx? (fun a => a == c) = none := by
    rw [List.findIdx?_eq_none_iff]
    intro x hx
    simp only [beq_eq_false_iff_ne, ne_eq]
    intro hxc
    exact h (hxc ▸ hx)
  unfold unloadContent jsIndexOf
  rw [hf]
  norm_num

/-- Witness for C1: unloading the unknown content `3` from a Graph holding
contents `[1, 2]` throws and leaves the state untouched. -/
theorem unloadContent_absent_throws_witness :
    (3 : ContentId) ∉ ([1, 2] : List ContentId) ∧
      unloadContent ⟨[1, 2], [1, 2], [1, 2]⟩ 3 =
        (⟨[1, 2], [1, 2], [1, 2]⟩, some GraphError.INVALID_OBJECT_PROVIDED) :=
  ⟨by decide, unloadContent_absent_throws ⟨[1, 2], [1, 2], [1, 2]⟩ 3 (by decide)⟩

/-- C6: for every non-empty Bar content value list, the computed value
range always includes zero — the returned minimum is the smaller of the
minimum y value and `0`, the returned maximum is the larger of the maximum
y value and `0`, so minimum `≤ 0 ≤` maximum. -/
theorem barRange_includes_zero (v : BarPoint) (vs : List BarPoint) :
    calculateValuesRangeBar (v :: vs) =
        (min (((v :: vs).map (fun i => i.y)).foldl min (v.y)) 0,
          max (((v :: vs).map (fun i => i.y)).foldl max (v.y)) 0) ∧
      (calculateValuesRangeBar (v :: vs)).1 ≤ 0 ∧
      0 ≤ (calculateValuesRangeBar (v :: vs)).2 := by
  have hmap : (v :: vs).map (fun i => i.y) = v.y :: vs.map (fun i => i.y) :=
    List.map_cons _ _ _
  have hmin : jsMinList ((v :: vs).map (fun i => i.y)) =
      some ((vs.map (fun i => i.y)).foldl min v.y) := by rw [hmap]; rfl
  have hmax : jsMaxList ((v :: vs).map (fun i => i.y)) =
      some ((vs.map (fun i => i.y)).foldl max v.y) := by rw [hmap]; rfl
  have hfoldmin : ((v :: vs).map (fun i => i.y)).foldl min v.y =
      (vs.map (fun i => i.y)).foldl min v.y := by
    rw [hmap, List.foldl_cons, min_self]
  have hfoldmax : ((v :: vs).map (fun i => i.y)).foldl max v.y =
      (vs.map (fun i => i.y)).foldl max v.y := by
    rw [hmap, List.foldl_cons, max_self]
  set m := (vs.map (fun i => i.y)).foldl min v.y with hm
  set M := (vs.map (fun i => i.y)).foldl max v.y with hM
  have heq : calculateValuesRangeBar (v :: vs) =
      ((if m < 0 then m else 0), (if M > 0 then M else 0)) := by
    unfold calculateValuesRangeBar
    rw [hmin, hmax]
  have h1 : (if m < 0 then m else 0) = min m 0 := by
    rcases lt_or_ge m 0 with hlt | hge
    · rw [if_pos hlt, min_eq_left (le_of_lt hlt)]
    · rw [if_neg (not_lt.mpr hge), min_eq_right hge]
  have h2 : (if M > 0 then M else 0) = max M 0 := by
    rcases lt_or_ge 0 M with hlt | hge
    · rw [if_pos hlt, max_eq_left (le_of_lt hlt)]
    · rw [if_neg (not_lt.mpr hge), max_eq_right hge]
  refine ⟨?_, ?_, ?_⟩
  · rw [heq, h1, h2, hfoldmin, hfoldmax]
  · rw [heq, h1]; exact min_le_right _ _
  · rw [heq, h2]; exact le_max_right _ _

theorem prepareHAxis_formula (t : XTicks) (old : Option (List Nat))
    (h : hasDatetimeBuckets (some t) = true) :
    prepareHAxisTicks (some t) old =
      some ((match t.lowerStepTickValues with
        | some l => l
        | none => t.values.getD []) ++ t.upperStepTickValues.getD []) := by
  have hnorm : ∀ o : Option (List Nat),
      (if notEmptyList o then o.getD [] else []) = o.getD [] := by
    intro o
    match o with
    | none => rfl
    | some [] => rfl
    | some (x :: xs) => rfl
  have hred : prepareHAxisTicks (some t) old =
      if hasDatetimeBuckets (some t) = true then
        some (constructDatetimeBucketValues
          (match t.lowerStepTickValues with
            | some l => some l
            | none => t.values) t.upperStepTickValues)
      else old := rfl
  rw [hred, if_pos h]
  unfold constructDatetimeBucketValues
  rw [hnorm, hnorm]
  cases hl : t.lowerStepTickValues with
  | some l => rfl
  | none => rfl

/-- C7: when three-tier datetime tick buckets are configured
(`hasDatetimeBuckets`), `prepareHAxis` prepares the X axis itself with a
tick-value list that is exactly the lower-step tick values (or the plain
`values` list when no `lowerStepTickValues` property is given)
concatenated with the upper-step tick values; `midpointTickValues` never
appear among the axis's ticks — the prepared list is unchanged under any
modification of the midpoint tier. -/
theorem prepareHAxis_bucket_ticks (t : XTicks) (old : Option (List Nat))
    (h : hasDatetimeBuckets (some t) = true) :
    prepareHAxisTicks (some t) old =
        some ((match t.lowerStepTickValues with
          | some l => l
          | none => t.values.getD []) ++ t.upperStepTickValues.getD []) ∧
      (∀ m, hasDatetimeBuckets (some { t with midpointTickValues := m }) =
          true →
        prepareHAxisTicks (some { t with midpointTickValues := m }) old =
          prepareHAxisTicks (some t) old) := by
  refine ⟨prepareHAxis_formula t old h, ?_⟩
  intro m hm
  rw [prepareHAxis_formula t old h,
    prepareHAxis_formula { t with midpointTickValues := m } old hm]

/-- Witness for C7: with `lowerStepTickValues = [3]`,
`midpointTickValues = [9]`, `upperStepTickValues = [4]` and plain
`values = [1, 2]`, the axis tick list is `[3, 4]`, and changing the
midpoint tier to `[100]` leaves it unchanged. -/
theorem prepareHAxis_bucket_ticks_witness :
    hasDatetimeBuckets (some ⟨some [1, 2], some [3], some [9], some [4]⟩) =
        true ∧
      prepareHAxisTicks (some ⟨some [1, 2], some [3], some [9], some [4]⟩)
          none = some [3, 4] ∧
      prepareHAxisTicks (some ⟨some [1, 2], some [3], some [100], some [4]⟩)
          none =
        prepareHAxisTicks (some ⟨some [1, 2], some [3], some [9], some [4]⟩)
          none :=
  ⟨by decide,
    (prepareHAxis_bucket_ticks ⟨some [1, 2], some [3], some [9], some [4]⟩
        none (by decide)).1,
    (prepareHAxis_bucket_ticks ⟨some [1, 2], some [3], some [9], some [4]⟩
        none (by decide)).2 (some [100]) (by decide)⟩

/-- C8: for every gantt track content whose `loadAtIndex` property is
present and below zero (and which passes the track content validation),
`prepareLoadAtIndex` throws the invalid-load-index error synchronously,
before any mutation: the returned state carries the input track list and
the input scale unchanged. -/
theorem prepareLoadAtIndex_negative_throws (st : GanttState)
    (c : TrackContent) (len : Nat) (i : Int)
    (hv : validateTrackContent c = none) (hidx : c.loadAtIndex = some i)
    (hneg : i < 0) :
    prepareLoadAtIndex st c len =
      ⟨st, some GanttError.INVALID_LOAD_CONTENT_AT_INDEX, none⟩ := by
  unfold prepareLoadAtIndex
  rw [hv, hidx]
  simp [hneg]

/-- Witness for C8: loading the track `t1` with `loadAtIndex = -2` into a
graph with an empty track list throws and keeps the track list and the
scale as they were. -/
theorem prepareLoadAtIndex_negative_throws_witness :
    validateTrackContent ⟨some "t1", some "Track 1", none, some (-2)⟩ =
        none ∧
      (⟨some "t1", some "Track 1", none,
          some (-2)⟩ : TrackContent).loadAtIndex = some (-2) ∧
      (-2 : Int) < 0 ∧
      prepareLoadAtIndex ⟨[], ⟨[], [0]⟩⟩
          ⟨some "t1", some "Track 1", none, some (-2)⟩ 0 =
        ⟨⟨[], ⟨[], [0]⟩⟩, some GanttError.INVALID_LOAD_CONTENT_AT_INDEX,
          none⟩ :=
  ⟨by decide, by decide, by decide,
    prepareLoadAtIndex_negative_throws ⟨[], ⟨[], [0]⟩⟩
      ⟨some "t1", some "Track 1", none, some (-2)⟩ 0 (-2) (by decide)
      (by decide) (by decide)⟩

theorem filterMap_y_filter (values : List DataPoint) :
    (values.filter (fun i => i.y ≠ none)).filterMap (fun i => i.y) =
      values.filterMap (fun i => i.y) := by
  induction values with
  | nil => rfl
  | cons p ps ih =>
    cases hp : p.y with
    | none =>
      have hfil : (p :: ps).filter (fun i => i.y ≠ none) =
          ps.filter (fun i => i.y ≠ none) := by
        rw [List.filter_cons]
        simp [hp]
      have hfm : (p :: ps).filterMap (fun i => i.y) =
          ps.filterMap (fun i => i.y) := by
        rw [List.filterMap_cons, hp]
      rw [hfil, hfm]
      exact ih
    | some q =>
      have hfil : (p :: ps).filter (fun i => i.y ≠ none) =
          p :: ps.filter (fun i => i.y ≠ none) := by
        rw [List.filter_cons]
        simp [hp]
      have hfm : ∀ l : List DataPoint, (p :: l).filterMap (fun i => i.y) =
          q :: l.filterMap (fun i => i.y) := by
        intro l
        rw [List.filterMap_cons, hp]
      rw [hfil, hfm, hfm, ih]

/-- C10: for every Line data-point value list containing at least one
point with non-null y (the filtered y list is `z :: zs`),
`calculateValuesRange` computes the minimum and maximum over only the
points whose y is not null — the result is unchanged when the null-y
points are removed first, and the returned min (resp. max) is an element
of the non-null y values that bounds all of them from below (resp.
above). -/
theorem calculateValuesRange_ignores_null (values : List DataPoint)
    (z : ℚ) (zs : List ℚ)
    (h : values.filterMap (fun i => i.y) = z :: zs) :
    calculateValuesRange values =
        calculateValuesRange (values.filter (fun i => i.y ≠ none)) ∧
      (∃ m, (calculateValuesRange values).min = some m ∧
        m ∈ z :: zs ∧ ∀ w ∈ z :: zs, m ≤ w) ∧
      (∃ M, (calculateValuesRange values).max = some M ∧
        M ∈ z :: zs ∧ ∀ w ∈ z :: zs, w ≤ M) := by
  have hdef : ∀ vs : List DataPoint, calculateValuesRange vs =
      { min := jsMinList (vs.filterMap (fun i => i.y)),
        max := jsMaxList (vs.filterMap (fun i => i.y)) } := fun _ => rfl
  refine ⟨?_, ?_, ?_⟩
  · rw [hdef, hdef, filterMap_y_filter]
  · refine ⟨zs.foldl min z, ?_, foldl_min_mem z zs, foldl_min_le z zs⟩
    rw [hdef, h]
    rfl
  · refine ⟨zs.foldl max z, ?_, foldl_max_mem z zs, le_foldl_max z zs⟩
    rw [hdef, h]
    rfl

/-- Witness for C10: the series `[(1, 3), (2, null), (3, -1)]` has
non-null y values `[3, -1]`; its range ignores the null point, with
minimum `-1` and maximum `3`. -/
theorem calculateValuesRange_ignores_null_witness :
    ([⟨1, some 3⟩, ⟨2, none⟩, ⟨3, some (-1)⟩] : List DataPoint).filterMap
        (fun i => i.y) = 3 :: [-1] ∧
      (calculateValuesRange [⟨1, some 3⟩, ⟨2, none⟩, ⟨3, some (-1)⟩] =
          calculateValuesRange
            (([⟨1, some 3⟩, ⟨2, none⟩,
              ⟨3, some (-1)⟩] : List DataPoint).filter
              (fun i => i.y ≠ none)) ∧
        (∃ m, (calculateValuesRange
            [⟨1, some 3⟩, ⟨2, none⟩, ⟨3, some (-1)⟩]).min = some m ∧
          m ∈ (3 : ℚ) :: [-1] ∧ ∀ w ∈ (3 : ℚ) :: [-1], m ≤ w) ∧
        (∃ M, (calculateValuesRange
            [⟨1, some 3⟩, ⟨2, none⟩, ⟨3, some (-1)⟩]).max = some M ∧
          M ∈ (3 : ℚ) :: [-1] ∧ ∀ w ∈ (3 : ℚ) :: [-1], w ≤ M)) :=
  ⟨by decide,
    calculateValuesRange_ignores_null
      [⟨1, some 3⟩, ⟨2, none⟩, ⟨3, some (-1)⟩] 3 [-1] (by decide)⟩

theorem optMin_comm (a b : Option ℚ) : optMin a b = optMin b a := by
  cases a <;> cases b <;> simp [optMin, min_comm]

theorem optMax_comm (a b : Option ℚ) : optMax a b = optMax b a := by
  cases a <;> cases b <;> simp [optMax, max_comm]

/-- C5: the merged axis domain computed from the loaded contents is
order-independent — for every pair of content series `A` and `B`, loading
`A` then `B` yields the same combined domain bounds for the shared axis
as loading `B` then `A`. -/
theorem computeDomain_comm (A B : LineSeries) (axis : YAxisId) :
    computeDomain [A, B] axis = computeDomain [B, A] axis := by
  have hmin : ∀ x : Option ℚ, optMin none x = x := by
    intro x
    cases x <;> rfl
  have hmax : ∀ x : Option ℚ, optMax none x = x := by
    intro x
    cases x <;> rfl
  unfold computeDomain
  cases hA : A.yAxis == axis <;> cases hB : B.yAxis == axis <;>
    simp [List.filter_cons, hA, hB, hmin, hmax, optMin_comm, optMax_comm]

/-- C4: for every `loadContent(content)` call on a Graph not already
holding the content's key, the axis domains are updated only when
registering the new content modified the combined data range for its
y axis (`isRangeModified`), and in that case the operation performs, in
order: update axis domains, then `content.load(graph)`, then — only when
datelines exist and the X axis is time-series — redraw the dateline
content, then a full `resize()` that calls `resize` on every registered
content. -/
theorem loadContent_events (g : LoadGraphState) (c : LoadContentInput)
    (hfresh : c.key ∉ g.contents.map (fun x => x.key)) :
    (LoadEvent.updateAxesDomain ∈ (loadContentTrace g c).1 ↔
        rangeModifiedFlag g c = true) ∧
      (rangeModifiedFlag g c = true →
        (loadContentTrace g c).1 =
          [.validateContent, .pushContent c.key, .setAxisPadding,
              .getAxesDataRange, .updateAxesDomain, .contentLoad c.key] ++
            (if g.dateline ≠ [] ∧ g.xType = .TIME_SERIES then
              [.redrawDatelineContent] else []) ++
            ([.setCanvasWidth, .scaleGraph, .translateGraph] ++
              (g.contents ++ [c]).map
                (fun x => LoadEvent.contentResize x.key))) := by
  constructor
  · by_cases hd : g.dateline ≠ [] ∧ g.xType = .TIME_SERIES <;>
      cases hflag : rangeModifiedFlag g c <;>
      simp [loadContentTrace, hfresh, hflag, hd, graphResizeEvents]
  · intro hflag
    by_cases hd : g.dateline ≠ [] ∧ g.xType = .TIME_SERIES <;>
      simp [loadContentTrace, hfresh, hflag, hd, graphResizeEvents]

/-- Witness for C4: loading a content with key `7` and range `(1, 2)`
into an empty Graph modifies the combined range, so the trace runs
domain update, load, and a resize of every registered content; the
dateline redraw is skipped (no datelines, default axis). -/
theorem loadContent_events_witness :
    (7 : Nat) ∉ (⟨[], ⟨none, none⟩, [], .DEFAULT⟩ :
        LoadGraphState).contents.map (fun x => x.key) ∧
      rangeModifiedFlag ⟨[], ⟨none, none⟩, [], .DEFAULT⟩
          ⟨7, .y, some (1, 2)⟩ = true ∧
      (loadContentTrace ⟨[], ⟨none, none⟩, [], .DEFAULT⟩
          ⟨7, .y, some (1, 2)⟩).1 =
        [.validateContent, .pushContent 7, .setAxisPadding,
            .getAxesDataRange, .updateAxesDomain, .contentLoad 7] ++
          (if (⟨[], ⟨none, none⟩, [], .DEFAULT⟩ :
              LoadGraphState).dateline ≠ [] ∧
              (⟨[], ⟨none, none⟩, [], .DEFAULT⟩ : LoadGraphState).xType =
                .TIME_SERIES then
            [.redrawDatelineContent] else []) ++
          ([.setCanvasWidth, .scaleGraph, .translateGraph] ++
            (([] : List LoadContentInput) ++
                ([⟨7, .y, some (1, 2)⟩] : List LoadContentInput)).map
              (fun x => LoadEvent.contentResize x.key)) :=
  ⟨by decide, by decide,
    (loadContent_events ⟨[], ⟨none, none⟩, [], .DEFAULT⟩
        ⟨7, .y, some (1, 2)⟩ (by decide)).2 (by decide)⟩

theorem hideAllRegionsS_fields (s : RState) :
    (hideAllRegionsS s).contents = s.contents ∧
      (hideAllRegionsS s).shownTargets = s.shownTargets ∧
      (hideAllRegionsS s).regions = s.regions.map (fun p => (p.1, true)) :=
  ⟨rfl, rfl, rfl⟩

theorem allHidden_hideAllRegionsS (s : RState) :
    allHidden (hideAllRegionsS s) := by
  intro p hp
  simp only [hideAllRegionsS, List.mem_map] at hp
  obtain ⟨q, _, hq⟩ := hp
  rw [← hq]

theorem lineResizeS_cases (c : RContent) (s : RState) :
    lineResizeS c s = s ∨ lineResizeS c s = hideAllRegionsS s := by
  unfold lineResizeS
  by_cases h : shouldHideAllRegionsS c.hasRegions s.shownTargets = true
  · right
    rw [if_pos h]
  · left
    rw [if_neg h]

theorem lineResizeS_hides (c : RContent) (s : RState)
    (hr : c.hasRegions = true) (hlen : 2 ≤ s.shownTargets.length) :
    lineResizeS c s = hideAllRegionsS s := by
  unfold lineResizeS
  rw [if_pos]
  unfold shouldHideAllRegionsS
  rw [hr]
  simp
  omega

theorem foldResize_contents (l : List RContent) (s : RState) :
    (l.foldl (fun acc c => lineResizeS c acc) s).contents = s.contents := by
  induction l generalizing s with
  | nil => rfl
  | cons c cs ih =>
    rw [List.foldl_cons]
    rcases lineResizeS_cases c s with h | h <;> rw [h, ih]
    rfl

theorem foldResize_shown (l : List RContent) (s : RState) :
    (l.foldl (fun acc c => lineResizeS c acc) s).shownTargets =
      s.shownTargets := by
  induction l generalizing s with
  | nil => rfl
  | cons c cs ih =>
    rw [List.foldl_cons]
    rcases lineResizeS_cases c s with h | h <;> rw [h, ih]
    rfl

theorem mapTrue_idem (rs : List (Nat × Bool)) :
    (rs.map (fun p => (p.1, true))).map (fun p => (p.1, true)) =
      rs.map (fun p => (p.1, true)) := by
  rw [List.map_map]
  rfl

theorem foldResize_regions (l : List RContent) (s : RState) :
    (l.foldl (fun acc c => lineResizeS c acc) s).regions = s.regions ∨
      (l.foldl (fun acc c => lineResizeS c acc) s).regions =
        s.regions.map (fun p => (p.1, true)) := by
  induction l generalizing s with
  | nil => left; rfl
  | cons c cs ih =>
    rw [List.foldl_cons]
    rcases lineResizeS_cases c s with h | h
    · rw [h]
      exact ih s
    · rw [h]
      rcases ih (hideAllRegionsS s) with h2 | h2
      · right
        rw [h2]
        rfl
      · right
        rw [h2]
        exact mapTrue_idem s.regions

theorem foldResize_allHidden (l : List RContent) (s : RState)
    (h : allHidden s) :
    allHidden (l.foldl (fun acc c => lineResizeS c acc) s) := by
  induction l generalizing s with
  | nil => exact h
  | cons c cs ih =>
    rw [List.foldl_cons]
    rcases lineResizeS_cases c s with hc | hc <;> rw [hc]
    · exact ih s h
    · exact ih (hideAllRegionsS s) (allHidden_hideAllRegionsS s)

theorem foldResize_hides (l : List RContent) (s : RState) (c0 : RContent)
    (hc : c0 ∈ l) (hr : c0.hasRegions = true)
    (hlen : 2 ≤ s.shownTargets.length) :
    allHidden (l.foldl (fun acc c => lineResizeS c acc) s) := by
  induction l generalizing s with
  | nil => exact absurd hc (List.not_mem_nil c0)
  | cons c cs ih =>
    rw [List.foldl_cons]
    rcases List.mem_cons.mp hc with hc0 | hc0
    · rw [← hc0, lineResizeS_hides c0 s hr hlen]
      exact foldResize_allHidden cs (hideAllRegionsS s)
        (allHidden_hideAllRegionsS s)
    · have hlen2 : 2 ≤ (lineResizeS c s).shownTargets.length := by
        rcases lineResizeS_cases c s with h | h <;> rw [h]
        · exact hlen
        · exact hlen
      exact ih (lineResizeS c s) hc0 hlen2

theorem foldResize_id_of_le_one (l : List RContent) (s : RState)
    (h : s.shownTargets.length ≤ 1) :
    l.foldl (fun acc c => lineResizeS c acc) s = s := by
  induction l with
  | nil => rfl
  | cons c cs ih =>
    rw [List.foldl_cons]
    have hstep : lineResizeS c s = s := by
      unfold lineResizeS
      rw [if_neg]
      unfold shouldHideAllRegionsS
      simp
      intro _
      omega
    rw [hstep, ih]

theorem graphResizeS_eq (s : RState) :
    graphResizeS s = s.contents.foldl (fun acc c => lineResizeS c acc) s :=
  rfl

theorem foldResize_inv_d (s : RState)
    (hd : ∀ p ∈ s.regions, ∃ c, c ∈ s.contents ∧ c.key = p.1 ∧
      c.hasRegions = true) :
    ∀ p ∈ (graphResizeS s).regions, ∃ c, c ∈ (graphResizeS s).contents ∧
      c.key = p.1 ∧ c.hasRegions = true := by
  intro p hp
  rw [graphResizeS_eq, foldResize_contents]
  rw [graphResizeS_eq] at hp
  rcases foldResize_regions s.contents s with h | h
  · rw [h] at hp
    exact hd p hp
  · rw [h] at hp
    obtain ⟨q, hq, hpq⟩ := List.mem_map.mp hp
    obtain ⟨c, hc, hck, hcr⟩ := hd q hq
    refine ⟨c, hc, ?_, hcr⟩
    rw [← hpq]
    exact hck

theorem loadContentS_eq (s : RState) (c : RContent) :
    loadContentS s c = graphResizeS
      { contents := s.contents ++ [c],
        shownTargets := if c.key ∈ s.shownTargets then s.shownTargets
          else s.shownTargets ++ [c.key],
        regions := s.regions ++
          (if c.hasRegions then [(c.key, false)] else []) } :=
  rfl

theorem load_inv (s : RState) (c : RContent) (hinv : RInv s)
    (hfresh : c.key ∉ s.contents.map (fun x => x.key)) :
    RInv (loadContentS s c) := by
  obtain ⟨ha, hb, hc0, hd⟩ := hinv
  rw [loadContentS_eq]
  set shown := if c.key ∈ s.shownTargets then s.shownTargets
    else s.shownTargets ++ [c.key] with hshown
  set s1 : RState := ⟨s.contents ++ [c], shown,
    s.regions ++ (if c.hasRegions then [(c.key, false)] else [])⟩ with hs1
  have hmem : c.key ∈ shown := by
    rw [hshown]
    by_cases h : c.key ∈ s.shownTargets
    · rw [if_pos h]
      exact h
    · rw [if_neg h]
      exact List.mem_append_right _ (by simp)
  have hd1 : ∀ p ∈ s1.regions, ∃ cc, cc ∈ s1.contents ∧ cc.key = p.1 ∧
      cc.hasRegions = true := by
    intro p hp
    rcases List.mem_append.mp hp with hp2 | hp2
    · obtain ⟨cc, hcc, hk, hr⟩ := hd p hp2
      exact ⟨cc, List.mem_append_left _ hcc, hk, hr⟩
    · by_cases hcr : c.hasRegions = true
      · rw [if_pos hcr] at hp2
        have hpe : p = (c.key, false) := by simpa using hp2
        exact ⟨c, List.mem_append_right _ (by simp), by rw [hpe], hcr⟩
      · rw [if_neg hcr] at hp2
        exact absurd hp2 (List.not_mem_nil p)
  have hs1shown : s1.shownTargets = shown := rfl
  by_cases hlen : 2 ≤ shown.length
  · have hallpost : allHidden (graphResizeS s1) := by
      by_cases hreg : s1.regions = []
      · intro p hp
        rw [graphResizeS_eq] at hp
        rcases foldResize_regions s1.contents s1 with h | h <;>
            rw [h, hreg] at hp <;>
          simp at hp
      · obtain ⟨p0, hp0⟩ := List.exists_mem_of_ne_nil s1.regions hreg
        obtain ⟨c0, hc0mem, _, hc0r⟩ := hd1 p0 hp0
        rw [graphResizeS_eq]
        exact foldResize_hides s1.contents s1 c0 hc0mem hc0r
          (by rw [hs1shown]; exact hlen)
    refine ⟨fun _ => hallpost, ?_, ?_, foldResize_inv_d s1 hd1⟩
    · intro t ht
      rw [graphResizeS_eq, foldResize_shown, hs1shown] at ht
      rw [ht] at hlen
      simp at hlen
    · intro h0
      rw [graphResizeS_eq, foldResize_shown, hs1shown] at h0
      rw [h0] at hlen
      simp at hlen
  · have hle : shown.length ≤ 1 := by omega
    have hpost : graphResizeS s1 = s1 := by
      rw [graphResizeS_eq]
      exact foldResize_id_of_le_one _ _ (by rw [hs1shown]; exact hle)
    have hlen1 : shown.length = 1 := by
      have hne : shown ≠ [] := List.ne_nil_of_mem hmem
      have := List.length_pos.mpr hne
      omega
    obtain ⟨t, ht⟩ := List.length_eq_one.mp hlen1
    have htc : t = c.key := by
      rw [ht] at hmem
      exact (List.mem_singleton.mp hmem).symm
    rw [hpost]
    refine ⟨?_, ?_, ?_, hd1⟩
    · intro h2
      exfalso
      rw [hs1shown] at h2
      omega
    · intro t2 ht2 p hp hpk
      rw [hs1shown, ht] at ht2
      have ht2t : t2 = t := by simpa using ht2.symm
      rcases List.mem_append.mp hp with hp2 | hp2
      · obtain ⟨cc, hcc, hk, _⟩ := hd p hp2
        exfalso
        apply hfresh
        refine List.mem_map.mpr ⟨cc, hcc, ?_⟩
        rw [hk, hpk, ht2t, htc]
      · by_cases hcr : c.hasRegions = true
        · rw [if_pos hcr] at hp2
          have hpe : p = (c.key, false) := by simpa using hp2
          rw [hpe]
        · rw [if_neg hcr] at hp2
          exact absurd hp2 (List.not_mem_nil p)
    · intro h0
      rw [hs1shown] at h0
      rw [h0] at hmem
      exact absurd hmem (List.not_mem_nil _)

theorem clickLegendS_eq (s : RState) (k : Nat) :
    clickLegendS s k = processRegionsS
      { s with shownTargets := if k ∈ s.shownTargets then
          s.shownTargets.erase k else s.shownTargets ++ [k] } :=
  rfl

theorem click_inv (s : RState) (k : Nat) (hinv : RInv s) :
    RInv (clickLegendS s k) := by
  obtain ⟨ha, hb, hc0, hd⟩ := hinv
  rw [clickLegendS_eq]
  set shown := if k ∈ s.shownTargets then s.shownTargets.erase k
    else s.shownTargets ++ [k] with hshown
  set s2 : RState := { s with shownTargets := shown } with hs2
  have hs2shown : s2.shownTargets = shown := rfl
  have hs2regions : s2.regions = s.regions := rfl
  have hs2contents : s2.contents = s.contents := rfl
  unfold processRegionsS
  by_cases hone : isSingleTargetDisplayedS s2.shownTargets = true
  · rw [if_pos hone]
    have hlen1 : shown.length = 1 := by
      rw [hs2shown] at hone
      simpa [isSingleTargetDisplayedS] using hone
    obtain ⟨t, ht⟩ := List.length_eq_one.mp hlen1
    have hall : allHidden s := by
      by_cases hk : k ∈ s.shownTargets
      · have herase := List.length_erase_of_mem hk
        rw [hshown, if_pos hk] at hlen1
        have hpos := List.length_pos.mpr (List.ne_nil_of_mem hk)
        have hlen2 : s.shownTargets.length = 2 := by omega
        exact ha (by omega)
      · rw [hshown, if_neg hk, List.length_append] at hlen1
        simp at hlen1
        exact hc0 hlen1
    have hhead : s2.shownTargets.headD 0 = t := by
      rw [hs2shown, ht]
      rfl
    rw [hhead]
    have htogshown : (toggleRegionS s2 t).shownTargets = shown := rfl
    have htogcontents : (toggleRegionS s2 t).contents = s.contents := rfl
    have htogregions : (toggleRegionS s2 t).regions =
        s.regions.map (fun p => if p.1 = t then (p.1, !p.2) else p) := rfl
    refine ⟨?_, ?_, ?_, ?_⟩
    · intro h2
      exfalso
      rw [htogshown] at h2
      omega
    · intro t2 ht2 p hp hpk
      rw [htogshown, ht] at ht2
      have ht2t : t2 = t := by simpa using ht2.symm
      rw [htogregions] at hp
      obtain ⟨q, hq, hpq⟩ := List.mem_map.mp hp
      by_cases hqt : q.1 = t
      · rw [if_pos hqt] at hpq
        rw [← hpq]
        have hq2 : q.2 = true := hall q hq
        rw [hq2]
        rfl
      · rw [if_neg hqt] at hpq
        exfalso
        apply hqt
        rw [hpq, hpk, ht2t]
    · intro h0
      rw [htogshown, ht] at h0
      simp at h0
    · intro p hp
      rw [htogregions] at hp
      rw [htogcontents]
      obtain ⟨q, hq, hpq⟩ := List.mem_map.mp hp
      obtain ⟨cc, hcc, hk, hr⟩ := hd q hq
      refine ⟨cc, hcc, ?_, hr⟩
      by_cases hqt : q.1 = t
      · rw [if_pos hqt] at hpq
        rw [← hpq]
        exact hk
      · rw [if_neg hqt] at hpq
        rw [← hpq]
        exact hk
  · rw [if_neg hone]
    have hhideshown : (hideAllRegionsS s2).shownTargets = shown := rfl
    have hhidecontents : (hideAllRegionsS s2).contents = s.contents := rfl
    refine ⟨fun _ => allHidden_hideAllRegionsS s2, ?_,
      fun _ => allHidden_hideAllRegionsS s2, ?_⟩
    · intro t ht
      exfalso
      apply hone
      rw [hhideshown] at ht
      have hl1 : shown.length = 1 := by
        rw [ht]
        rfl
      simp [isSingleTargetDisplayedS, hs2shown, hl1]
    · intro p hp
      rw [hhidecontents]
      have hp2 : p ∈ s2.regions.map (fun q => (q.1, true)) := hp
      obtain ⟨q, hq, hpq⟩ := List.mem_map.mp hp2
      rw [hs2regions] at hq
      obtain ⟨cc, hcc, hk, hr⟩ := hd q hq
      refine ⟨cc, hcc, ?_, hr⟩
      rw [← hpq]
      exact hk

theorem unloadContentS_eq (s : RState) (k : Nat) :
    unloadContentS s k = graphResizeS
      ⟨s.contents.filter (fun c => c.key ≠ k), s.shownTargets,
        s.regions.filter (fun p => p.1 ≠ k)⟩ :=
  rfl

theorem unload_inv (s : RState) (k : Nat) (hinv : RInv s) :
    RInv (unloadContentS s k) := by
  obtain ⟨ha, hb, hc0, hd⟩ := hinv
  rw [unloadContentS_eq]
  set s3 : RState := ⟨s.contents.filter (fun c => c.key ≠ k), s.shownTargets,
    s.regions.filter (fun p => p.1 ≠ k)⟩ with hs3
  have hs3shown : s3.shownTargets = s.shownTargets := rfl
  have hsub : ∀ p ∈ s3.regions, p ∈ s.regions := by
    intro p hp
    exact (List.mem_filter.mp hp).1
  have hd3 : ∀ p ∈ s3.regions, ∃ cc, cc ∈ s3.contents ∧ cc.key = p.1 ∧
      cc.hasRegions = true := by
    intro p hp
    have hpk : p.1 ≠ k := by simpa using (List.mem_filter.mp hp).2
    obtain ⟨cc, hcc, hk, hr⟩ := hd p (hsub p hp)
    refine ⟨cc, List.mem_filter.mpr ⟨hcc, ?_⟩, hk, hr⟩
    simp [hk, hpk]
  by_cases hlen : 2 ≤ s.shownTargets.length
  · have hall3 : allHidden s3 := by
      intro p hp
      exact ha hlen p (hsub p hp)
    refine ⟨?_, ?_, ?_, foldResize_inv_d s3 hd3⟩
    · intro _
      rw [graphResizeS_eq]
      exact foldResize_allHidden _ _ hall3
    · intro t ht
      exfalso
      rw [graphResizeS_eq, foldResize_shown, hs3shown] at ht
      rw [ht] at hlen
      simp at hlen
    · intro h0
      exfalso
      rw [graphResizeS_eq, foldResize_shown, hs3shown] at h0
      rw [h0] at hlen
      simp at hlen
  · have hle : s.shownTargets.length ≤ 1 := by omega
    have hid : graphResizeS s3 = s3 := by
      rw [graphResizeS_eq]
      exact foldResize_id_of_le_one _ _ (by rw [hs3shown]; exact hle)
    rw [hid]
    refine ⟨?_, ?_, ?_, hd3⟩
    · intro h2
      exfalso
      rw [hs3shown] at h2
      omega
    · intro t ht p hp hpk
      rw [hs3shown] at ht
      exact hb t ht p (hsub p hp) hpk
    · intro h0
      rw [hs3shown] at h0
      intro p hp
      exact hc0 h0 p (hsub p hp)

theorem resize_inv (s : RState) (hinv : RInv s) : RInv (graphResizeS s) := by
  obtain ⟨ha, hb, hc0, hd⟩ := hinv
  by_cases hlen : 2 ≤ s.shownTargets.length
  · refine ⟨?_, ?_, ?_, foldResize_inv_d s hd⟩
    · intro _
      rw [graphResizeS_eq]
      exact foldResize_allHidden _ _ (ha hlen)
    · intro t ht
      exfalso
      rw [graphResizeS_eq, foldResize_shown] at ht
      rw [ht] at hlen
      simp at hlen
    · intro h0
      exfalso
      rw [graphResizeS_eq, foldResize_shown] at h0
      rw [h0] at hlen
      simp at hlen
  · have hid : graphResizeS s = s := by
      rw [graphResizeS_eq]
      exact foldResize_id_of_le_one _ _ (by omega)
    rw [hid]
    exact ⟨ha, hb, hc0, hd⟩

theorem rreach_inv (s : RState) (h : RReach s) : RInv s := by
  induction h with
  | init =>
    exact ⟨fun _ p hp => absurd hp (List.not_mem_nil p),
      fun t ht p hp _ => absurd hp (List.not_mem_nil p),
      fun _ p hp => absurd hp (List.not_mem_nil p),
      fun p hp => absurd hp (List.not_mem_nil p)⟩
  | load s c hs hfresh ih => exact load_inv s c ih hfresh
  | click s k hs hloaded ih => exact click_inv s k ih
  | unload s k hs ih => exact unload_inv s k ih
  | resize s hs ih => exact resize_inv s ih

/-- C3: in every reachable state of the region subsystem, whenever two or
more targets are shown in the Graph, every region rect carries
`aria-hidden=true`; and whenever exactly one target is shown, that
target's region rects are visible (`aria-hidden=false`) — the region
visibility matches the single shown content's legend state. -/
theorem region_visibility (s : RState) (h : RReach s) :
    (2 ≤ s.shownTargets.length → ∀ p ∈ s.regions, p.2 = true) ∧
      (∀ t, s.shownTargets = [t] → ∀ p ∈ s.regions, p.1 = t →
        p.2 = false) := by
  obtain ⟨ha, hb, _, _⟩ := rreach_inv s h
  exact ⟨ha, hb⟩

/-- Witness for C3: load two contents with regions (keys 1 and 2), then
click content 2's legend item; exactly one target (key 1) remains shown
and its regions are visible. -/
theorem region_visibility_witness :
    (clickLegendS (loadContentS (loadContentS ⟨[], [], []⟩ ⟨1, true⟩)
        ⟨2, true⟩) 2).shownTargets = [1] ∧
      ∀ p ∈ (clickLegendS (loadContentS (loadContentS ⟨[], [], []⟩
          ⟨1, true⟩) ⟨2, true⟩) 2).regions, p.1 = 1 → p.2 = false :=
  ⟨by decide,
    (region_visibility _
        (RReach.click _ 2
          (RReach.load _ _ (RReach.load _ _ RReach.init (by decide))
            (by decide))
          (by decide))).2 1 (by decide)⟩

end Carbon
